import Mathlib

/-!
Shallow embedding of the `pprof4svc` Go package (plugin.go, pprof.go, mem.go,
gc.go, trace.go) and proofs about it.

Conventions of the embedding:
* Go strings are Lean `String`s; query/form/param maps are association lists
  in request order (`net/url.Values` lookup returns the first value).
* `http.Header` is an association list with `Set` (replace), `Del` and `Get`.
* Machine integers (`int`, `int64`, `time.Duration`, `uint64`) are modelled as
  `Int`/`Nat` with the overflow checks the source performs written out
  explicitly against `2^63`.
* The runtime facilities the package calls but does not implement
  (`pprof.Lookup`'s registry, `runtime.MemStats` contents, the binary bodies
  written by `Profile.WriteTo` and `trace.Start`) are parameters or tagged
  opaque payloads; the package's own control flow, header writes, status
  codes and state transitions are modelled exactly.
-/

namespace Pprof4svc

/-! ## HTTP headers (`net/http.Header` `Set`/`Del`/`Get`) -/

/-- Response headers, newest-set entry first. -/
abbrev Headers := List (String × String)

/-- Model of `Header.Del k`: removes every entry with key `k`. -/
def hDel (hs : Headers) (k : String) : Headers :=
  hs.filter (fun p => !(p.1 == k))

/-- Model of `Header.Set k v`: replaces any existing entry for `k`. -/
def hSet (hs : Headers) (k v : String) : Headers :=
  (k, v) :: hDel hs k

/-- Model of `Header.Get k`: the current value for key `k`, if any. -/
def hGet (hs : Headers) (k : String) : Option String :=
  (hs.find? (fun p => p.1 == k)).map Prod.snd

/-! ## Requests -/

/-- The parts of a `gin.Context`' request that the handlers read. -/
structure GinRequest where
  /-- URL query parameters, in order. -/
  query : List (String × String)
  /-- Combined form values, as read by `Request.FormValue`. -/
  form : List (String × String)
  /-- Gin route parameters (for `:name`). -/
  params : List (String × String)
deriving DecidableEq

/-- Model of `ctx.Query k` / `url.Values.Get`: first value or `""`. -/
def queryV (q : List (String × String)) (k : String) : String :=
  match q.find? (fun p => p.1 == k) with
  | some p => p.2
  | none => ""

/-- Model of `ctx.GetQuery k`: first value with a presence flag. -/
def getQuery (q : List (String × String)) (k : String) : String × Bool :=
  match q.find? (fun p => p.1 == k) with
  | some p => (p.2, true)
  | none => ("", false)

/-- Model of `ctx.Request.FormValue k` over the request's combined form data. -/
def formValue (req : GinRequest) (k : String) : String :=
  queryV req.form k

/-- Model of `ctx.Param k`. -/
def paramV (req : GinRequest) (k : String) : String :=
  queryV req.params k

/-! ## Response bodies and responses -/

/-- Body written to the raw `http.ResponseWriter`. -/
inductive Body where
  /-- Text written by `fmt.Fprintln` in `serveError` (includes the newline). -/
  | errText (s : String)
  /-- Opaque profile bytes written by `p.WriteTo(w, debug)` in `pprof0`. -/
  | profileData (name : String) (debug : Int)
deriving DecidableEq

/-- A response assembled on the raw `http.ResponseWriter`. -/
structure HttpResponse where
  status : Nat
  headers : Headers
  body : Body
deriving DecidableEq

/-- Embedding of `serveError` (pprof.go): sets the plain-text content type and
the `X-Go-Pprof` marker, deletes any `Content-Disposition`, writes the status
and prints the message followed by a newline. -/
def serveError (hs : Headers) (status : Nat) (txt : String) : HttpResponse :=
  let hs1 := hSet hs "Content-Type" "text/plain; charset=utf-8"
  let hs2 := hSet hs1 "X-Go-Pprof" "1"
  let hs3 := hDel hs2 "Content-Disposition"
  ⟨status, hs3, .errText (txt ++ "\n")⟩

/-! ## `strconv.Atoi`

`pprof0` does `debug, _ := strconv.Atoi(...)`, discarding the error, so the
embedding returns the value Go's `Atoi` returns alongside a discarded error:
`0` on a syntax error, the value clamped to the `int64` range on overflow. -/

/-- Accumulate decimal digits; `none` if a non-digit is met. -/
def digitsVal0 : List Char → Nat → Option Nat
  | [], acc => some acc
  | c :: cs, acc =>
    if c.isDigit then digitsVal0 cs (acc * 10 + (c.toNat - 48)) else none

/-- The syntactic part of `strconv.Atoi`: optional sign then one or more
decimal digits; `none` on any syntax error. -/
def atoiParse (s : String) : Option Int :=
  match s.data with
  | [] => none
  | '-' :: cs =>
    match cs with
    | [] => none
    | _ => (digitsVal0 cs 0).map (fun n => -(n : Int))
  | '+' :: cs =>
    match cs with
    | [] => none
    | _ => (digitsVal0 cs 0).map (fun n => (n : Int))
  | cs => (digitsVal0 cs 0).map (fun n => (n : Int))

def int64Max : Int := 9223372036854775807

def int64Min : Int := -9223372036854775808

/-- Model of `strconv.Atoi` with its error discarded: `0` on syntax error,
values outside `int64` clamped as `strconv.ParseInt` does on range error. -/
def atoi (s : String) : Int :=
  match atoiParse s with
  | none => 0
  | some v => if v > int64Max then int64Max else if v < int64Min then int64Min else v

/-! ## `pprof0` (pprof.go)

The runtime profile registry behind `pprof.Lookup` is a parameter: the list
of registered profile names. -/

/-- Embedding of `pprof0`: serve the named profile, as a binary attachment
when the `debug` form value parses to `0` (or is absent or non-numeric),
as plain text when it parses to a nonzero value; 404 via `serveError` when
the name is not in the runtime registry. -/
def pprof0 (registry : List String) (req : GinRequest) : HttpResponse :=
  let name := paramV req "name"
  let hs := hSet [] "X-Content-Type-Options" "nosniff"
  if name ∈ registry then
    let debug := atoi (formValue req "debug")
    if debug ≠ 0 then
      ⟨200, hSet hs "Content-Type" "text/plain; charset=utf-8", .profileData name debug⟩
    else
      ⟨200,
        hSet (hSet hs "Content-Type" "application/octet-stream")
          "Content-Disposition" ("attachment; filename=\"" ++ name ++ "\""),
        .profileData name debug⟩
  else serveError hs 404 "Unknown profile"

/-! ## `mem0` / `gc0` (mem.go, gc.go)

The `runtime.MemStats` / `debug.GCStats` snapshots are runtime-supplied and
their formatted bodies are elided; the dispatch between text and JSON variant
and the status code are modelled exactly. Go's `strings.ToLower` applies
Unicode simple lowercase mappings; `toLower0` applies the ASCII mappings,
which agree with Go on every character whose lowercase image could occur in
`"1"`, `"t"` or `"true"` (the only preimages of those characters under the
Unicode simple mapping are their ASCII upper/lower-case forms). -/

/-- Model of `strings.ToLower` restricted to ASCII mappings. -/
def toLower0 (s : String) : String :=
  String.mk (s.data.map Char.toLower)

/-- Which variant of the stats report a handler produced. -/
inductive StatsVariant where
  /-- Via `ctx.String(200, ...)`: the formatted plain-text report. -/
  | text
  /-- Via `ctx.JSON(200, ...)`: the JSON map. -/
  | json
deriving DecidableEq

/-- A stats-endpoint response: status code and report variant (report
contents come from the runtime snapshot and are elided). -/
structure StatsResponse where
  status : Nat
  variant : StatsVariant
deriving DecidableEq

/-- Embedding of `mem0`: the `switch strings.ToLower(ctx.Query("json"))`
with cases `"1", "t", "true"` selecting JSON, default selecting text. -/
def mem0 (q : List (String × String)) : StatsResponse :=
  let json0 := toLower0 (queryV q "json")
  if json0 = "1" ∨ json0 = "t" ∨ json0 = "true" then ⟨200, .json⟩
  else ⟨200, .text⟩

/-- Embedding of `gc0`: identical dispatch to `mem0`, over the GC snapshot. -/
def gc0 (q : List (String × String)) : StatsResponse :=
  let json0 := toLower0 (queryV q "json")
  if json0 = "1" ∨ json0 = "t" ∨ json0 = "true" then ⟨200, .json⟩
  else ⟨200, .text⟩

/-! ## The plugin and its routes (plugin.go)

`math/rand` is modelled as a stream `r : Nat → Fin 63` of the successive
values returned by `rand.Intn(len(chars))` (the `chars` alphabet has 63
characters, so `Intn` yields values in `[0, 63)`). -/

def pprofIndexRoute : String := "/debug/pprof/"

def pprofNameRoute : String := "/debug/pprof/:name"

def pprofCmdlineRoute : String := "/debug/pprof/cmdline"

def pprofProfileRoute : String := "/debug/pprof/profile"

def pprofSymbolRoute : String := "/debug/pprof/symbol"

def pprofTraceRoute : String := "/debug/pprof/trace"

def memRoute : String := "/debug/mem"

def gcRoute : String := "/debug/gc"

def traceRoute : String := "/debug/trace"

/-- The alphabet used by `randPrefix`'s inner `rand0`. -/
def charsList : List Char :=
  "ABCDEFGHIJKLMNOPQRSTUVWXYZabcdefghijklmnopqrstuvwxyz0123456789_".data

theorem charsList_length : charsList.length = 63 := by decide

/-- Embedding of the inner `rand0(len0)`: `len0` characters, each
`chars[rand.Intn(len(chars))]`, drawn from the random stream `r`. -/
def rand0 (r : Nat → Fin 63) (len0 : Nat) : String :=
  String.mk ((List.range len0).map
    (fun i => charsList.get (Fin.cast charsList_length.symm (r i))))

/-- Embedding of `randPrefix`: `"/" + rand0(40)`. The Go field is named
`prefix`; here it is `prefix0`. -/
def randPrefix0 (r : Nat → Fin 63) : String :=
  "/" ++ rand0 r 40

/-- Embedding of the `plugin` struct. -/
structure plugin where
  entrypoint : String
  token : String
  prefix0 : String
  pprofIndex : String
  pprofName : String
  pprofCmdline : String
  pprofProfile : String
  pprofSymbol : String
  pprofTrace : String
  memRoute : String
  gcRoute : String
  traceRoute : String
deriving DecidableEq

/-- Embedding of `Plugin(entrypoint, token)`: generates the random prefix
once and prefixes every route with it. -/
def Plugin (r : Nat → Fin 63) (entrypoint token : String) : plugin :=
  let prefix0 := randPrefix0 r
  { entrypoint := entrypoint
    token := token
    prefix0 := prefix0
    pprofIndex := prefix0 ++ pprofIndexRoute
    pprofName := prefix0 ++ pprofNameRoute
    pprofCmdline := prefix0 ++ pprofCmdlineRoute
    pprofProfile := prefix0 ++ pprofProfileRoute
    pprofSymbol := prefix0 ++ pprofSymbolRoute
    pprofTrace := prefix0 ++ pprofTraceRoute
    memRoute := prefix0 ++ memRoute
    gcRoute := prefix0 ++ gcRoute
    traceRoute := prefix0 ++ traceRoute }

/-- Embedding of `DefaultPlugin(token)`. -/
def DefaultPlugin (r : Nat → Fin 63) (token : String) : plugin :=
  Plugin r pprofIndexRoute token

/-- Embedding of `Plug`: the routes registered on the Gin engine, in
registration order, as (path, handler name) pairs. -/
def Plug (p : plugin) : List (String × String) :=
  [ (p.entrypoint, "handler"),
    (p.pprofIndex, "pprof.Index"),
    (p.pprofCmdline, "pprof.Cmdline"),
    (p.pprofProfile, "pprof.Profile"),
    (p.pprofSymbol, "pprof.Symbol"),
    (p.pprofTrace, "pprof.Trace"),
    (p.pprofName, "pprof0"),
    (p.memRoute, "mem0"),
    (p.gcRoute, "gc0"),
    (p.traceRoute, "trace0") ]

/-- The nine logical route suffixes that get the random prefix, in the
order `Plug` registers them (after the entrypoint). -/
def routeSuffixes : List String :=
  [pprofIndexRoute, pprofCmdlineRoute, pprofProfileRoute, pprofSymbolRoute,
   pprofTraceRoute, pprofNameRoute, memRoute, gcRoute, traceRoute]

/-- Outcome of the entrypoint handler. -/
inductive HandlerResult where
  /-- Via `ctx.String(status, body)`: a plain-text response, no redirect. -/
  | stringResp (status : Nat) (body : String)
  /-- Via `ctx.Redirect(status, location)`. -/
  | redirect (status : Nat) (location : String)
deriving DecidableEq

/-- Embedding of `(*plugin).handler`: compares the `token` query value
(empty when absent) for exact equality against the configured token;
401 on mismatch, else 301 redirect to the prefixed pprof index. -/
def handler (p : plugin) (q : List (String × String)) : HandlerResult :=
  let token0 := (getQuery q "token").1
  if token0 ≠ p.token then .stringResp 401 "Unauthorized"
  else .redirect 301 p.pprofIndex

/-! ## `time.ParseDuration`

Faithful model of Go's `time.ParseDuration` (std `time/format.go`),
accumulating nanoseconds in a `Nat` with the source's explicit overflow
checks against `1<<63`. The only deviation: for a fractional part the
source computes `uint64(float64(f) * (float64(unit) / scale))` in IEEE
float64; the model computes the exact `f * unit / scale` in `Nat`
(truncating division). The two agree whenever the exact value is
representable, in particular for every claim-relevant input (which have no
fractional part at all). -/

/-- The bound `1 << 63` used by the source's overflow checks. -/
def u63 : Nat := 9223372036854775808

/-- Model of `leadingInt`: consume leading digits into `x` with the
source's two overflow checks; `none` models its `errLeadingInt`. -/
def leadingInt0 : Nat → List Char → Option (Nat × List Char)
  | x, [] => some (x, [])
  | x, c :: cs =>
    if c.isDigit then
      if x > u63 / 10 then none
      else
        let x1 := x * 10 + (c.toNat - 48)
        if x1 > u63 then none
        else leadingInt0 x1 cs
    else some (x, c :: cs)

/-- Model of `leadingFraction`: consume fraction digits into `x` with a
scale; once an overflow would occur, remaining digits are consumed without
changing `x` or `scale` (the source's `overflow` flag). -/
def leadingFraction0 : Nat → Nat → Bool → List Char → Nat × Nat × List Char
  | x, scale, _, [] => (x, scale, [])
  | x, scale, overflow, c :: cs =>
    if c.isDigit then
      if overflow then leadingFraction0 x scale overflow cs
      else if x > (u63 - 1) / 10 then leadingFraction0 x scale true cs
      else
        let y := x * 10 + (c.toNat - 48)
        if y > u63 then leadingFraction0 x scale true cs
        else leadingFraction0 y (scale * 10) false cs
    else (x, scale, c :: cs)

/-- The source's `unitMap`: nanoseconds per unit suffix. -/
def durUnits : String → Option Nat
  | "ns" => some 1
  | "us" => some 1000
  | "µs" => some 1000
  | "μs" => some 1000
  | "ms" => some 1000000
  | "s" => some 1000000000
  | "m" => some 60000000000
  | "h" => some 3600000000000
  | _ => none

/-- The main `for s != ""` loop of `ParseDuration`, accumulating `d`
nanoseconds. `fuel` bounds the iteration count; every successful iteration
consumes at least one character, so `fuel = s.length` never runs out. -/
def parseDurLoop : Nat → List Char → Nat → Option Nat
  | _, [], d => some d
  | 0, _ :: _, _ => none
  | fuel + 1, s@(c :: _), d =>
    if !(c == '.' || c.isDigit) then none
    else
      match leadingInt0 0 s with
      | none => none
      | some (v, s1) =>
        let pre : Bool := s1.length != s.length
        let fr :=
          match s1 with
          | '.' :: t =>
            let fsr := leadingFraction0 0 1 false t
            (fsr.1, fsr.2.1, fsr.2.2, (fsr.2.2.length != t.length : Bool))
          | _ => (0, 1, s1, false)
        match fr with
        | (f, scale, s2, post) =>
          if !pre && !post then none
          else
            let uChars := s2.takeWhile (fun ch => !(ch == '.' || ch.isDigit))
            if uChars.length = 0 then none
            else
              let s3 := s2.drop uChars.length
              match durUnits (String.mk uChars) with
              | none => none
              | some unit =>
                if v > u63 / unit then none
                else
                  let v1 := v * unit
                  let v2 := if f > 0 then v1 + f * unit / scale else v1
                  if f > 0 ∧ v2 > u63 then none
                  else
                    let d1 := d + v2
                    if d1 > u63 then none
                    else parseDurLoop fuel s3 d1

/-- Model of `time.ParseDuration`: `none` models a returned error (the
caller `trace0` discards the error, receiving `0`). -/
def parseDuration (s : String) : Option Int :=
  let l := s.data
  let (neg, l1) :=
    match l with
    | '-' :: t => (true, t)
    | '+' :: t => (false, t)
    | _ => (false, l)
  if l1 = ['0'] then some 0
  else if l1 = [] then none
  else
    match parseDurLoop l1.length l1 0 with
    | none => none
    | some d =>
      if neg then some (-(d : Int))
      else if d > u63 - 1 then none
      else some (d : Int)

/-! ## `trace0` (trace.go)

The mutable state the handler touches: the package-global mutex `mu`
(`locked`) and the runtime tracer's active flag (`trace.IsEnabled()`,
`enabled`). The tracer flag is global to the process: it is also set by the
`pprof.Trace` passthrough registered at the prefixed
`/debug/pprof/trace` route, so `enabled = true ∧ locked = false` is a
reachable entry state for `trace0`. -/

/-- The trace gate's view of the process state. -/
structure TraceState where
  /-- Whether the package mutex `mu` is held. -/
  locked : Bool
  /-- Whether the runtime tracer is recording, i.e. `trace.IsEnabled()`. -/
  enabled : Bool
deriving DecidableEq

/-- Embedding of `!mu.TryLock() || trace.IsEnabled()` including `TryLock`'s
acquisition side effect and `||`'s short-circuiting: returns the state after
evaluating the condition, and the condition's value. When `TryLock`
succeeds the mutex is held in the returned state, whatever the condition
evaluates to. -/
def trace0Gate (st : TraceState) : TraceState × Bool :=
  if st.locked then (st, true)
  else if st.enabled then ({ st with locked := true }, true)
  else ({ st with locked := true }, false)

/-- Model of `trace.Start(ctx.Writer)`: the runtime tracer becomes active. -/
def trace0Start (st : TraceState) : TraceState :=
  { st with enabled := true }

/-- Model of `trace.Stop()` followed by the deferred `mu.Unlock()`. -/
def trace0Finish (_st : TraceState) : TraceState :=
  { locked := false, enabled := false }

/-- The default `time.Second * 10` in nanoseconds. -/
def tenSeconds : Int := 10000000000

/-- The duration computation of `trace0`: empty parameter becomes `"10s"`,
the parse error is discarded (yielding `0`), and a zero duration falls back
to ten seconds. -/
def traceDur (durParam : String) : Int :=
  let dur0str := if durParam = "" then "10s" else durParam
  let dur0 : Int := (parseDuration dur0str).getD 0
  if dur0 = 0 then tenSeconds else dur0

/-- Result of a `trace0` invocation. -/
inductive TraceResult where
  /-- The gate rejected the request via `serveError`. -/
  | rejected (resp : HttpResponse)
  /-- A capture ran: the tracer streamed to the response for `durNs`
  nanoseconds (`time.Sleep(dur0)` between `Start` and `Stop`). -/
  | captured (durNs : Int)
deriving DecidableEq

/-- Embedding of `trace0`: the gate check (with its lock side effect), then
either the rejection — note the deferred unlock is *not yet registered* on
that path — or a capture of `traceDur` nanoseconds followed by `Stop` and
the deferred unlock. `durParam` is `ctx.Query("dur")` (empty when absent).
The state during the capture window, between `Start` and `Stop`, is
`trace0Start (trace0Gate st).1 = { locked := true, enabled := true }`. -/
def trace0 (st : TraceState) (durParam : String) : TraceState × TraceResult :=
  match trace0Gate st with
  | (st1, true) => (st1, .rejected (serveError [] 400 "Tracing is already active"))
  | (st1, false) =>
    (trace0Finish (trace0Start st1), .captured (traceDur durParam))

/-! ## `convertBytes` (mem.go)

The source computes in IEEE-754 binary64 (`float64`); the model represents
every float64 value by the rational it denotes and makes the two rounding
operations explicit via `fl64`:
* `value := float64(bytes)` rounds the `uint64` count to 53 significant
  bits — modelled by `fl64`;
* each `value /= 1024` is exact in binary64 (a binary-exponent decrement;
  the values stay ≥ 1, far from subnormals, and far from overflow) — so
  the loop over the exact rational of the float value is the float loop;
* `value * 100` rounds — modelled by `fl64`;
* `math.Round` (half away from zero) returns an integer below `2^53`
  (at most `round(2^64 / 2^30 * 100) < 2^41`), hence exact — modelled by
  `mathRound` on the exact value;
* the final `/ 100` and the `%.2f` rendering reproduce exactly the
  two-decimal value `round/100`: the quotient's float64 is within `2^-19`
  of `round/100`, far below the half-spacing `1/200` of two-decimal
  values, so the correctly rounded `%.2f` output is `round/100`. -/

/-- The unit table of `convertBytes`. -/
def units : List String := ["B", "KB", "MB", "GB"]

/-- Rounding to the nearest integer with ties to even — the rounding of
the IEEE-754 default rounding direction, used by `fl64`. -/
def roundTE (x : ℚ) : ℤ :=
  let f := ⌊x⌋
  let r := x - f
  if r < 1 / 2 then f
  else if 1 / 2 < r then f + 1
  else if f % 2 = 0 then f else f + 1

/-- IEEE-754 binary64 rounding (round to nearest, ties to even, 53
significant bits) of a rational that is zero or at least 1 — the only
shapes arising in `convertBytes` (the scaled value is ≥ 1 whenever
`bytes ≥ 1`, and the rounded products are ≥ 100 or 0). For `q ≥ 1` the
floor of the binary logarithm is `Nat.log2 ⌊q⌋₊` and the significand is
`q` scaled into `[2^52, 2^53]` and rounded ties-to-even; a significand
that rounds up to `2^53` still denotes the correct float (the bottom of
the next binade). Inputs in `(0, 1)` and negative inputs do not occur in
the pipeline and are returned unchanged; subnormals and overflow are
unreachable for the magnitudes involved (at most `2^64 * 100`). -/
def fl64 (q : ℚ) : ℚ :=
  if q < 1 then q
  else
    let L := Nat.log2 ⌊q⌋₊
    if 52 ≤ L then ((roundTE (q / 2 ^ (L - 52)) : ℤ) : ℚ) * 2 ^ (L - 52)
    else ((roundTE (q * 2 ^ (52 - L)) : ℤ) : ℚ) / 2 ^ (52 - L)

/-- Model of `math.Round`: round half away from zero (exact on the floats
it receives here, whose values are integers after rounding). -/
def mathRound (v : ℚ) : ℚ :=
  if 0 ≤ v then ((⌊v + 1 / 2⌋ : ℤ) : ℚ) else -((⌊-v + 1 / 2⌋ : ℤ) : ℚ)

/-- The scaling loop of `convertBytes`:
`for value >= 1024 && unitIndex < len(units)-1 { value /= 1024; unitIndex++ }`.
The divisions by 1024 are exact in binary64, so exact division of the
float's rational value models them faithfully. -/
def convertLoop (value : ℚ) (unitIndex : Nat) : ℚ × Nat :=
  if 1024 ≤ value ∧ unitIndex < units.length - 1 then
    convertLoop (value / 1024) (unitIndex + 1)
  else (value, unitIndex)
termination_by units.length - 1 - unitIndex
decreasing_by simp [units] at *; omega

/-- Embedding of `convertBytes` with the source's float64 roundings made
explicit: convert (rounding), scale (exact), multiply by 100 (rounding),
round half away from zero, and pair the two-decimal value with the
selected unit name. -/
def convertBytes (bytes : Nat) : ℚ × String :=
  let value0 := fl64 (bytes : ℚ)
  let vi := convertLoop value0 0
  (mathRound (fl64 (vi.1 * 100)) / 100, units.getD vi.2 "")

/-! ## Theorems -/

/-- A fixed random stream (every `rand.Intn` call returns 0), used to build
concrete plugin instances in witnesses and counterexamples. -/
def r0 : Nat → Fin 63 := fun _ => 0

/-- Claim C1 (code bug): the claim says the trace gate lock is released on
every exit path of the trace handler, so no permanent lockout. The code
violates this: entering `trace0` with the mutex free while the runtime
tracer is already active (reachable, since the `pprof.Trace` passthrough
route starts the tracer), `mu.TryLock()` succeeds, `trace.IsEnabled()` is
true, and the handler returns 400 before `defer mu.Unlock()` is registered
— the mutex stays held in the post state. From then on, whatever the tracer
flag, every subsequent `trace0` request leaves the mutex held and is
rejected: a permanent lockout. -/
theorem C1_trace_gate_lock_leak :
    (trace0 { locked := false, enabled := true } "").1 =
      { locked := true, enabled := true } ∧
    (trace0 { locked := false, enabled := true } "").2 =
      .rejected (serveError [] 400 "Tracing is already active") ∧
    ∀ (d : String) (e : Bool),
      (trace0 { locked := true, enabled := e } d).1 =
        { locked := true, enabled := e } ∧
      (trace0 { locked := true, enabled := e } d).2 =
        .rejected (serveError [] 400 "Tracing is already active") := by
  exact ⟨rfl, rfl, fun d e => ⟨rfl, rfl⟩⟩

/-- Claim C2: while a first capture is inside its duration window the gate
state is `{ locked := true, enabled := true }` (last conjunct: the state
after the first request passes the gate and calls `trace.Start`); any
trace-control request arriving at a state where the mutex is held is
rejected with status 400 and body "Tracing is already active" and returns
the state unchanged — no queuing, no effect on the in-progress capture. -/
theorem C2_trace_contention_rejected (st : TraceState) (d : String)
    (h : st.locked = true) :
    trace0 st d = (st, .rejected (serveError [] 400 "Tracing is already active")) ∧
    (serveError [] 400 "Tracing is already active").status = 400 ∧
    (serveError [] 400 "Tracing is already active").body =
      .errText "Tracing is already active\n" ∧
    trace0Start (trace0Gate { locked := false, enabled := false }).1 =
      { locked := true, enabled := true } := by
  refine ⟨?_, rfl, rfl, rfl⟩
  cases st with
  | mk l e =>
    cases l with
    | false => simp at h
    | true => rfl

/-- Witness for C2 at the concrete in-window state and `dur=7s`. -/
theorem C2_trace_contention_rejected_witness :
    trace0 { locked := true, enabled := true } "7s" =
      ({ locked := true, enabled := true },
        .rejected (serveError [] 400 "Tracing is already active")) :=
  (C2_trace_contention_rejected { locked := true, enabled := true } "7s" rfl).1

/-- Claim C3 counterexample: `dur=-5s` parses to the negative duration
-5e9 ns, which is nonzero, so `trace0` uses it as given (a retroactive
sleep, i.e. a zero-length capture) instead of the claimed 10-second
default. -/
theorem C3_negative_duration_cex :
    (trace0 { locked := false, enabled := false } "-5s").2 =
      .captured (-5000000000) ∧
    (-5000000000 : Int) ≠ tenSeconds ∧ (-5000000000 : Int) < 0 := by
  exact ⟨by decide, by decide, by decide⟩

/-- The duration fallback: a parse error (discarded, yielding 0) or an
exactly-zero parse falls back to ten seconds. -/
theorem traceDur_of_err (d : String) (hne : d ≠ "")
    (hp : parseDuration d = none) : traceDur d = tenSeconds := by
  simp only [traceDur, if_neg hne, hp, Option.getD]
  rfl

/-- The duration fallback for an exactly-zero parse. -/
theorem traceDur_of_zero (d : String) (hne : d ≠ "")
    (hp : parseDuration d = some 0) : traceDur d = tenSeconds := by
  simp only [traceDur, if_neg hne, hp, Option.getD]
  rfl

/-- A nonzero parsed duration is used as given. -/
theorem traceDur_of_nonzero (d : String) (n : Int) (hn : n ≠ 0)
    (hne : d ≠ "") (hp : parseDuration d = some n) : traceDur d = n := by
  simp only [traceDur, if_neg hne, hp, Option.getD]
  exact if_neg hn

/-- Claim C3 as amended: a `dur` parameter that is absent, unparsable, or
parses to exactly zero yields the 10-second default; any nonzero parsed
duration — including negative ones — is used as given; `dur=5s` gives a
5-second capture. (The original claim also sent negative parses to the
default; the code only checks for zero.) -/
theorem C3_amended_duration_default (d : String) :
    (trace0 { locked := false, enabled := false } "").2 = .captured tenSeconds ∧
    (trace0 { locked := false, enabled := false } "5s").2 = .captured 5000000000 ∧
    (d ≠ "" → parseDuration d = none →
      (trace0 { locked := false, enabled := false } d).2 = .captured tenSeconds) ∧
    (d ≠ "" → parseDuration d = some 0 →
      (trace0 { locked := false, enabled := false } d).2 = .captured tenSeconds) ∧
    (∀ n : Int, n ≠ 0 → d ≠ "" → parseDuration d = some n →
      (trace0 { locked := false, enabled := false } d).2 = .captured n) := by
  have key : ∀ s : String,
      (trace0 { locked := false, enabled := false } s).2 = .captured (traceDur s) :=
    fun s => rfl
  refine ⟨by decide, by decide, ?_, ?_, ?_⟩
  · intro hne hp
    rw [key, traceDur_of_err d hne hp]
  · intro hne hp
    rw [key, traceDur_of_zero d hne hp]
  · intro n hn hne hp
    rw [key, traceDur_of_nonzero d n hn hne hp]

/-- Witness for C3 (amended) at the unparsable input `dur=bogus`. -/
theorem C3_amended_duration_default_witness :
    (trace0 { locked := false, enabled := false } "bogus").2 =
      .captured tenSeconds :=
  (C3_amended_duration_default "bogus").2.2.1 (by decide) (by decide)

/-- Claim C4: for every entrypoint request, a `token` query value (empty
when the parameter is absent) differing from the configured token gets a
401 plain-text response and no redirect; an equal value gets a 301 redirect
whose target is the generated random prefix followed by the canonical
pprof index path. -/
theorem C4_entrypoint_auth (r : Nat → Fin 63) (e t : String)
    (q : List (String × String)) :
    ((getQuery q "token").1 ≠ t →
      handler (Plugin r e t) q = .stringResp 401 "Unauthorized") ∧
    ((getQuery q "token").1 = t →
      handler (Plugin r e t) q = .redirect 301 (randPrefix0 r ++ pprofIndexRoute)) := by
  have htok : (Plugin r e t).token = t := rfl
  have hidx : (Plugin r e t).pprofIndex = randPrefix0 r ++ pprofIndexRoute := rfl
  constructor
  · intro h
    simp [handler, htok, hidx, h]
  · intro h
    simp [handler, htok, hidx, h]

/-- Witness for C4: wrong token is refused, matching token is redirected,
for a concrete plugin built from the all-zero random stream. -/
theorem C4_entrypoint_auth_witness :
    handler (Plugin r0 "/debug/pprof/" "tok") [("token", "bad")] =
      .stringResp 401 "Unauthorized" :=
  (C4_entrypoint_auth r0 "/debug/pprof/" "tok" [("token", "bad")]).1 (by decide)

/-- Claim C10: with an empty configured token, a request with no `token`
query parameter at all is authorized and redirected — `GetQuery` defaults
the missing value to `""`, which compares equal to the empty token, so an
empty token disables the gate. -/
theorem C10_empty_token_redirects (r : Nat → Fin 63) (e : String)
    (q : List (String × String))
    (h : q.find? (fun p => p.1 == "token") = none) :
    handler (Plugin r e "") q = .redirect 301 (randPrefix0 r ++ pprofIndexRoute) := by
  have hq : (getQuery q "token").1 = "" := by
    simp [getQuery, h]
  have hidx : (Plugin r e "").pprofIndex = randPrefix0 r ++ pprofIndexRoute := rfl
  have htok : (Plugin r e "").token = "" := rfl
  simp [handler, hq, htok, hidx]

/-- Witness for C10 at the empty query list. -/
theorem C10_empty_token_redirects_witness :
    handler (Plugin r0 "/debug/pprof/" "") [] =
      .redirect 301 (randPrefix0 r0 ++ pprofIndexRoute) :=
  C10_empty_token_redirects r0 "/debug/pprof/" [] rfl

/-- Claim C9: a `json` query value whose (ASCII) lowercasing is `"1"`,
`"t"` or `"true"` yields the JSON variant of both the memory-stats and the
GC-stats report; any other value (including the absent default `""`)
yields the text variant; both variants carry status 200. -/
theorem C9_stats_json_dispatch (q : List (String × String)) :
    (toLower0 (queryV q "json") = "1" ∨ toLower0 (queryV q "json") = "t" ∨
        toLower0 (queryV q "json") = "true" →
      mem0 q = ⟨200, .json⟩ ∧ gc0 q = ⟨200, .json⟩) ∧
    (toLower0 (queryV q "json") ≠ "1" → toLower0 (queryV q "json") ≠ "t" →
        toLower0 (queryV q "json") ≠ "true" →
      mem0 q = ⟨200, .text⟩ ∧ gc0 q = ⟨200, .text⟩) := by
  constructor
  · intro h
    constructor <;> simp [mem0, gc0, h]
  · intro h1 h2 h3
    constructor <;> simp [mem0, gc0, h1, h2, h3]

/-- Witness for C9: `?json=TRuE` selects JSON on both endpoints. -/
theorem C9_stats_json_dispatch_witness :
    mem0 [("json", "TRuE")] = ⟨200, .json⟩ ∧
    gc0 [("json", "TRuE")] = ⟨200, .json⟩ :=
  (C9_stats_json_dispatch [("json", "TRuE")]).1 (by decide)

/-- Claim C7: for a known profile name, a `debug` form value whose `Atoi`
result is 0 — which includes the absent value `""` and every non-numeric
value, per the last two conjuncts — gives content type
`application/octet-stream` and a `Content-Disposition` attachment naming
the profile; a nonzero `Atoi` result gives `text/plain; charset=utf-8` and
no `Content-Disposition` header. -/
theorem C7_named_profile_headers (registry : List String) (req : GinRequest)
    (hname : paramV req "name" ∈ registry) :
    (atoi (formValue req "debug") = 0 →
      (pprof0 registry req).status = 200 ∧
      hGet (pprof0 registry req).headers "Content-Type" =
        some "application/octet-stream" ∧
      hGet (pprof0 registry req).headers "Content-Disposition" =
        some ("attachment; filename=\"" ++ paramV req "name" ++ "\"")) ∧
    (atoi (formValue req "debug") ≠ 0 →
      (pprof0 registry req).status = 200 ∧
      hGet (pprof0 registry req).headers "Content-Type" =
        some "text/plain; charset=utf-8" ∧
      hGet (pprof0 registry req).headers "Content-Disposition" = none) ∧
    atoi "" = 0 ∧
    (∀ s, atoiParse s = none → atoi s = 0) := by
  refine ⟨?_, ?_, rfl, ?_⟩
  · intro hd
    have heq : pprof0 registry req =
        ⟨200,
          hSet (hSet (hSet [] "X-Content-Type-Options" "nosniff")
              "Content-Type" "application/octet-stream")
            "Content-Disposition"
            ("attachment; filename=\"" ++ paramV req "name" ++ "\""),
          .profileData (paramV req "name") (atoi (formValue req "debug"))⟩ := by
      simp [pprof0, hname, hd]
    rw [heq]
    exact ⟨rfl, rfl, rfl⟩
  · intro hd
    have heq : pprof0 registry req =
        ⟨200,
          hSet (hSet [] "X-Content-Type-Options" "nosniff")
            "Content-Type" "text/plain; charset=utf-8",
          .profileData (paramV req "name") (atoi (formValue req "debug"))⟩ := by
      simp [pprof0, hname, hd]
    rw [heq]
    exact ⟨rfl, rfl, rfl⟩
  · intro s hs
    simp [atoi, hs]

/-- Concrete request for the C7 witness: route parameter `name=heap`, no
form data. -/
def reqHeap : GinRequest := ⟨[], [], [("name", "heap")]⟩

/-- Witness for C7 with registry `["heap"]` and an absent `debug` value. -/
theorem C7_named_profile_headers_witness :
    (pprof0 ["heap"] reqHeap).status = 200 ∧
    hGet (pprof0 ["heap"] reqHeap).headers "Content-Type" =
      some "application/octet-stream" ∧
    hGet (pprof0 ["heap"] reqHeap).headers "Content-Disposition" =
      some ("attachment; filename=\"" ++ paramV reqHeap "name" ++ "\"") :=
  (C7_named_profile_headers ["heap"] reqHeap (by decide)).1 (by decide)

/-- Claim C8: for a profile name not in the runtime registry the response
is a 404 with the plain-text error body `"Unknown profile\n"`, the
diagnostic `X-Go-Pprof: 1` header, and no `Content-Disposition` header. -/
theorem C8_unknown_profile (registry : List String) (req : GinRequest)
    (h : paramV req "name" ∉ registry) :
    (pprof0 registry req).status = 404 ∧
    hGet (pprof0 registry req).headers "Content-Type" =
      some "text/plain; charset=utf-8" ∧
    hGet (pprof0 registry req).headers "X-Go-Pprof" = some "1" ∧
    hGet (pprof0 registry req).headers "Content-Disposition" = none ∧
    (pprof0 registry req).body = .errText "Unknown profile\n" := by
  have heq : pprof0 registry req =
      serveError (hSet [] "X-Content-Type-Options" "nosniff") 404
        "Unknown profile" := by
    simp [pprof0, h]
  rw [heq]
  exact ⟨rfl, rfl, rfl, rfl, rfl⟩

/-- Concrete request for the C8 witness: route parameter `name=nope`. -/
def reqNope : GinRequest := ⟨[], [], [("name", "nope")]⟩

/-- Witness for C8 with registry `["heap"]` and the unknown name `nope`. -/
theorem C8_unknown_profile_witness :
    (pprof0 ["heap"] reqNope).status = 404 ∧
    hGet (pprof0 ["heap"] reqNope).headers "Content-Type" =
      some "text/plain; charset=utf-8" ∧
    hGet (pprof0 ["heap"] reqNope).headers "X-Go-Pprof" = some "1" ∧
    hGet (pprof0 ["heap"] reqNope).headers "Content-Disposition" = none ∧
    (pprof0 ["heap"] reqNope).body = .errText "Unknown profile\n" :=
  C8_unknown_profile ["heap"] reqNope (by decide)

/-- Claim C5 counterexample: `Plug` also registers the entrypoint route,
whose path is the configurable entrypoint (default `/debug/pprof/`) and
does not carry the random prefix — it equals none of the nine
prefix-plus-suffix paths. So "every registered route path equals `/` + the
random string + a logical suffix" is false for a concrete default plugin. -/
theorem C5_entrypoint_unprefixed_cex :
    ((Plug (DefaultPlugin r0 "tok")).map Prod.fst).head? = some "/debug/pprof/" ∧
    ((routeSuffixes.map (fun suf => randPrefix0 r0 ++ suf)).contains
        "/debug/pprof/") = false := by
  exact ⟨rfl, by decide⟩

/-- Claim C5 as amended: the random prefix is generated once at
construction; every registered route path other than the entrypoint equals
that one prefix followed by the route's logical suffix (first conjunct:
the registered path list is exactly the entrypoint followed by the nine
suffixes each prefixed with the same string); and the prefix is `/`
followed by 40 characters drawn from the 63-character
alphanumeric-plus-underscore alphabet. The route table is a pure function
of the constructed plugin value, which is immutable. (The original claim
quantified over *every* registered route path; the un-prefixed entrypoint
registration is the exception the counterexample exhibits.) -/
theorem C5_amended_prefixed_routes (r : Nat → Fin 63) (e t : String) :
    (Plug (Plugin r e t)).map Prod.fst =
      e :: routeSuffixes.map (fun suf => randPrefix0 r ++ suf) ∧
    (Plugin r e t).prefix0 = randPrefix0 r ∧
    (randPrefix0 r).length = 41 ∧
    (randPrefix0 r).data.head? = some '/' ∧
    (∀ c ∈ (randPrefix0 r).data.tail, c ∈ charsList) := by
  refine ⟨rfl, rfl, ?_, rfl, ?_⟩
  · show ('/' :: ((List.range 40).map _)).length = 41
    simp
  · intro c hc
    have hc' : c ∈ (List.range 40).map
        (fun i => charsList.get (Fin.cast charsList_length.symm (r i))) := hc
    rw [List.mem_map] at hc'
    obtain ⟨i, _, rfl⟩ := hc'
    exact List.get_mem _ _ _

/-- The scaling loop stops when its guard fails. -/
theorem convertLoop_stop (v : ℚ) (i : Nat)
    (h : ¬(1024 ≤ v ∧ i < units.length - 1)) : convertLoop v i = (v, i) := by
  rw [convertLoop.eq_def]
  exact if_neg h

/-- The scaling loop takes one step when its guard holds. -/
theorem convertLoop_step (v : ℚ) (i : Nat)
    (h : 1024 ≤ v ∧ i < units.length - 1) :
    convertLoop v i = convertLoop (v / 1024) (i + 1) := by
  nth_rewrite 1 [convertLoop.eq_def]
  exact if_pos h

/-- Evaluation of `convertBytes` in terms of the computed loop result. -/
theorem convertBytes_eq (b : Nat) (v : ℚ) (i : Nat)
    (h : convertLoop (fl64 (b : ℚ)) 0 = (v, i)) :
    convertBytes b = (mathRound (fl64 (v * 100)) / 100, units.getD i "") := by
  simp only [convertBytes]
  rw [h]

/-- Ties-to-even rounding is the identity on integers. -/
theorem roundTE_intCast (m : ℤ) : roundTE ((m : ℤ) : ℚ) = m := by
  simp only [roundTE, Int.floor_intCast, sub_self]
  norm_num

/-- Ties-to-even rounding is the identity on natural numbers. -/
theorem roundTE_natCast (n : Nat) : roundTE ((n : ℕ) : ℚ) = (n : ℤ) := by
  have h : ((n : ℕ) : ℚ) = ((n : ℤ) : ℚ) := by push_cast; rfl
  rw [h, roundTE_intCast]

/-- Ties-to-even rounding never goes below the floor. -/
theorem floor_le_roundTE (x : ℚ) : ⌊x⌋ ≤ roundTE x := by
  simp only [roundTE]
  split_ifs <;> omega

/-- Characterization of `Nat.log2` by its defining bounds. -/
theorem log2_eq_of (n k : Nat) (h0 : n ≠ 0) (h1 : 2 ^ k ≤ n)
    (h2 : n < 2 ^ (k + 1)) : Nat.log2 n = k := by
  have ha := (Nat.le_log2 h0).mpr h1
  have hb := (Nat.log2_lt h0).mpr h2
  omega

/-- Binary64 conversion is exact on natural numbers below `2^53`. -/
theorem fl64_natCast (n : Nat) (h : n < 2 ^ 53) : fl64 (n : ℚ) = (n : ℚ) := by
  rcases Nat.eq_zero_or_pos n with h0 | h0
  · subst h0
    simp [fl64]
  · have hn0 : n ≠ 0 := Nat.pos_iff_ne_zero.mp h0
    have hge : ¬((n : ℚ) < 1) := not_lt.mpr (by exact_mod_cast h0)
    have hlog : Nat.log2 n < 53 := (Nat.log2_lt hn0).mpr h
    simp only [fl64, Nat.floor_natCast]
    rw [if_neg hge]
    by_cases h52 : 52 ≤ Nat.log2 n
    · have hL : Nat.log2 n = 52 := le_antisymm (by omega) h52
      rw [if_pos h52, hL, Nat.sub_self, pow_zero, div_one, mul_one]
      have hc : ((n : ℕ) : ℚ) = ((n : ℤ) : ℚ) := by push_cast; rfl
      rw [hc, roundTE_intCast]
    · rw [if_neg h52]
      have hc : ((n : ℕ) : ℚ) * 2 ^ (52 - Nat.log2 n) =
          (((n * 2 ^ (52 - Nat.log2 n) : ℕ)) : ℚ) := by push_cast; ring
      rw [hc, roundTE_natCast]
      push_cast
      exact mul_div_cancel_right₀ _ (by positivity)

/-- Binary64 conversion of a natural number at least `2^53` yields a value
at least `2^40`, so every loop comparison against the 1024-boundaries
succeeds for such counts. -/
theorem fl64_big (n : Nat) (h : 2 ^ 53 ≤ n) : (2 ^ 40 : ℚ) ≤ fl64 (n : ℚ) := by
  have hn0 : n ≠ 0 := by positivity
  have hge : ¬((n : ℚ) < 1) := by
    push_neg
    have : (1 : ℕ) ≤ n := by omega
    exact_mod_cast this
  have h52 : 52 ≤ Nat.log2 n := (Nat.le_log2 hn0).mpr (le_trans (by norm_num) h)
  have hpow : (2 : ℚ) ^ Nat.log2 n ≤ (n : ℚ) := by exact_mod_cast Nat.log2_self_le hn0
  simp only [fl64, Nat.floor_natCast]
  rw [if_neg hge, if_pos h52]
  have hx : (2 ^ 52 : ℚ) ≤ (n : ℚ) / 2 ^ (Nat.log2 n - 52) := by
    rw [le_div_iff₀ (by positivity)]
    calc (2 : ℚ) ^ 52 * 2 ^ (Nat.log2 n - 52)
        = 2 ^ (52 + (Nat.log2 n - 52)) := (pow_add 2 52 (Nat.log2 n - 52)).symm
      _ = 2 ^ Nat.log2 n := by rw [Nat.add_sub_cancel' h52]
      _ ≤ (n : ℚ) := hpow
  have hfl : (2 ^ 52 : ℤ) ≤ ⌊(n : ℚ) / 2 ^ (Nat.log2 n - 52)⌋ :=
    Int.le_floor.mpr (by exact_mod_cast hx)
  have h1 : (2 ^ 52 : ℚ) ≤ ((roundTE ((n : ℚ) / 2 ^ (Nat.log2 n - 52)) : ℤ) : ℚ) := by
    exact_mod_cast le_trans hfl (floor_le_roundTE _)
  calc (2 ^ 40 : ℚ) ≤ 2 ^ 52 := by norm_num
    _ ≤ ((roundTE ((n : ℚ) / 2 ^ (Nat.log2 n - 52)) : ℤ) : ℚ) := h1
    _ ≤ ((roundTE ((n : ℚ) / 2 ^ (Nat.log2 n - 52)) : ℤ) : ℚ) *
          2 ^ (Nat.log2 n - 52) := by
        apply le_mul_of_one_le_right (le_trans (by norm_num) h1)
        exact one_le_pow₀ (by norm_num)

/-- Division-by-1024 chains as powers. -/
theorem div_1024_sq (v : ℚ) : v / 1024 / 1024 = v / 1024 ^ 2 := by
  rw [div_div]
  norm_num

/-- Division-by-1024 chains as powers, third step. -/
theorem div_1024_cube (v : ℚ) : v / 1024 ^ 2 / 1024 = v / 1024 ^ 3 := by
  rw [div_div]
  norm_num

/-- Claim C6 counterexample: at `bytes = 360727952008151` the float64
product `value * 100` rounds `33595408.4999999963…` up to the representable
tie `33595408.5`, which `math.Round` (half away from zero) takes to
`33595409`, so the program renders `335954.09 GB`; the exact two-decimal
rounding of `b / 1024^3` is `335954.08`. The claim's "numeric part rounded
to two decimal places" is therefore false of the program at this input. -/
theorem C6_float_rounding_cex :
    (convertBytes 360727952008151).2 = "GB" ∧
    (convertBytes 360727952008151).1 = 33595409 / 100 ∧
    mathRound ((360727952008151 : ℚ) / 1024 ^ 3 * 100) / 100 = 33595408 / 100 ∧
    ((33595409 : ℚ) / 100) ≠ 33595408 / 100 := by
  have hb53 : (360727952008151 : ℕ) < 2 ^ 53 := by norm_num
  have hfl1 : fl64 ((360727952008151 : ℕ) : ℚ) = ((360727952008151 : ℕ) : ℚ) :=
    fl64_natCast _ hb53
  have hc : ((360727952008151 : ℕ) : ℚ) = (360727952008151 : ℚ) := by
    push_cast
    rfl
  have hloop : convertLoop (fl64 ((360727952008151 : ℕ) : ℚ)) 0 =
      (((360727952008151 : ℕ) : ℚ) / 1024 ^ 3, 3) := by
    rw [hfl1, hc]
    rw [convertLoop_step _ _ ⟨by norm_num, by decide⟩,
      convertLoop_step _ _ ⟨by norm_num, by decide⟩, div_1024_sq,
      convertLoop_step _ _ ⟨by norm_num, by decide⟩, div_1024_cube]
    exact convertLoop_stop _ 3 (fun hcon => absurd hcon.2 (by decide))
  have hmain := convertBytes_eq 360727952008151 _ _ hloop
  have harg : ((360727952008151 : ℕ) : ℚ) / 1024 ^ 3 * 100 =
      9018198800203775 / 268435456 := by
    push_cast
    norm_num
  have hq1 : ¬((9018198800203775 / 268435456 : ℚ) < 1) := by norm_num
  have hfloorq : ⌊(9018198800203775 / 268435456 : ℚ)⌋₊ = 33595408 := by
    rw [Nat.floor_eq_iff (by positivity)]
    constructor <;> norm_num
  have hlog : Nat.log2 33595408 = 25 :=
    log2_eq_of _ _ (by decide) (by decide) (by decide)
  have hfl2 : fl64 (9018198800203775 / 268435456 : ℚ) = 67190817 / 2 := by
    simp only [fl64]
    rw [if_neg hq1, hfloorq, hlog, if_neg (by norm_num : ¬(52 ≤ 25)),
      (by norm_num : 52 - 25 = 27)]
    have hx : (9018198800203775 / 268435456 : ℚ) * 2 ^ 27 =
        ((4509099400101887 : ℤ) : ℚ) + 1 / 2 := by
      push_cast
      norm_num
    rw [hx]
    have hr : roundTE (((4509099400101887 : ℤ) : ℚ) + 1 / 2) = 4509099400101888 := by
      simp only [roundTE]
      have hf : ⌊((4509099400101887 : ℤ) : ℚ) + 1 / 2⌋ = 4509099400101887 := by
        rw [Int.floor_eq_iff]
        constructor <;> push_cast <;> norm_num
      rw [hf]
      norm_num
    rw [hr]
    push_cast
    norm_num
  have hmr1 : mathRound ((67190817 : ℚ) / 2) = 33595409 := by
    simp only [mathRound]
    rw [if_pos (by norm_num)]
    have hf : ⌊(67190817 : ℚ) / 2 + 1 / 2⌋ = 33595409 := by
      rw [Int.floor_eq_iff]
      constructor <;> push_cast <;> norm_num
    rw [hf]
    norm_num
  have hexact : mathRound ((360727952008151 : ℚ) / 1024 ^ 3 * 100) = 33595408 := by
    have harg2 : (360727952008151 : ℚ) / 1024 ^ 3 * 100 =
        9018198800203775 / 268435456 := by norm_num
    rw [harg2]
    simp only [mathRound]
    rw [if_pos (by norm_num)]
    have hf : ⌊(9018198800203775 / 268435456 : ℚ) + 1 / 2⌋ = 33595408 := by
      rw [Int.floor_eq_iff]
      constructor <;> norm_num
    rw [hf]
    norm_num
  refine ⟨?_, ?_, ?_, by norm_num⟩
  · rw [hmain]
    rfl
  · rw [hmain]
    show mathRound (fl64 (((360727952008151 : ℕ) : ℚ) / 1024 ^ 3 * 100)) / 100 =
      33595409 / 100
    rw [harg, hfl2, hmr1]
  · rw [hexact]

/-- Claim C6 as amended: for every byte count `b`, `convertBytes` selects
the unit of index `k`, where `k` is the least index with
`b / 1024^k < 1024` (capped at 3, the largest unit GB, when no index
qualifies), and its numeric part is the half-away-from-zero two-decimal
rounding of the float64-computed scaled value
`fl64 (fl64 b / 1024^k * 100)` — which, for counts below `2^53`, is
`fl64 (b / 1024^k * 100)`: the exact quotient with only the final
multiplication by 100 rounded. This float64 value can differ from the
exact two-decimal rounding of `b / 1024^k` by one hundredth when the
multiplication rounds across a boundary, as at `b = 360727952008151`. -/
theorem C6_amended_convertBytes_float (b : Nat) :
    ∃ k : Nat, k ≤ 3 ∧
      ((b : ℚ) / 1024 ^ k < 1024 ∨ k = 3) ∧
      (∀ j, j < k → 1024 ≤ (b : ℚ) / 1024 ^ j) ∧
      (convertBytes b).2 = units.getD k "" ∧
      (convertBytes b).1 = mathRound (fl64 (fl64 (b : ℚ) / 1024 ^ k * 100)) / 100 ∧
      (b < 2 ^ 53 →
        (convertBytes b).1 = mathRound (fl64 ((b : ℚ) / 1024 ^ k * 100)) / 100) := by
  by_cases h0 : (b : ℚ) < 1024
  · have hb : b < 2 ^ 53 := by
      have h : (b : ℚ) < 2 ^ 53 := lt_trans h0 (by norm_num)
      exact_mod_cast h
    have hfl : fl64 (b : ℚ) = (b : ℚ) := fl64_natCast b hb
    have hl : convertLoop (fl64 (b : ℚ)) 0 = ((b : ℚ), 0) := by
      rw [hfl]
      exact convertLoop_stop _ _ (fun hc => absurd hc.1 (not_le.mpr h0))
    have hmain := convertBytes_eq b _ _ hl
    refine ⟨0, by norm_num, Or.inl (by simpa using h0),
      fun j hj => absurd hj (Nat.not_lt_zero j), by rw [hmain], ?_, fun _ => ?_⟩
    · rw [hmain, hfl, pow_zero, div_one]
    · rw [hmain, pow_zero, div_one]
  · have h0' : 1024 ≤ (b : ℚ) := not_lt.1 h0
    by_cases h1 : (b : ℚ) / 1024 < 1024
    · have hb : b < 2 ^ 53 := by
        have h : (b : ℚ) < 1024 * 1024 := (div_lt_iff₀ (by norm_num)).mp h1
        have h' : (b : ℚ) < 2 ^ 53 := lt_trans h (by norm_num)
        exact_mod_cast h'
      have hfl : fl64 (b : ℚ) = (b : ℚ) := fl64_natCast b hb
      have hl : convertLoop (fl64 (b : ℚ)) 0 = ((b : ℚ) / 1024, 1) := by
        rw [hfl, convertLoop_step _ _ ⟨h0', by decide⟩]
        exact convertLoop_stop _ _ (fun hc => absurd hc.1 (not_le.mpr h1))
      have hmain := convertBytes_eq b _ _ hl
      refine ⟨1, by norm_num, Or.inl (by rw [pow_one]; exact h1), ?_,
        by rw [hmain], ?_, fun _ => ?_⟩
      · intro j hj
        interval_cases j
        simpa using h0'
      · rw [hmain, hfl, pow_one]
      · rw [hmain, pow_one]
    · have h1' : 1024 ≤ (b : ℚ) / 1024 := not_lt.1 h1
      by_cases h2 : (b : ℚ) / 1024 ^ 2 < 1024
      · have hb : b < 2 ^ 53 := by
          have h : (b : ℚ) < 1024 * 1024 ^ 2 := (div_lt_iff₀ (by positivity)).mp h2
          have h' : (b : ℚ) < 2 ^ 53 := lt_trans h (by norm_num)
          exact_mod_cast h'
        have hfl : fl64 (b : ℚ) = (b : ℚ) := fl64_natCast b hb
        have hl : convertLoop (fl64 (b : ℚ)) 0 = ((b : ℚ) / 1024 ^ 2, 2) := by
          rw [hfl, convertLoop_step _ _ ⟨h0', by decide⟩,
            convertLoop_step _ _ ⟨h1', by decide⟩, div_1024_sq]
          exact convertLoop_stop _ _ (fun hc => absurd hc.1 (not_le.mpr h2))
        have hmain := convertBytes_eq b _ _ hl
        refine ⟨2, by norm_num, Or.inl h2, ?_, by rw [hmain], by rw [hmain, hfl],
          fun _ => by rw [hmain]⟩
        intro j hj
        interval_cases j
        · simpa using h0'
        · simpa [pow_one] using h1'
      · have h2' : 1024 ≤ (b : ℚ) / 1024 ^ 2 := not_lt.1 h2
        have hsel : ∀ j, j < 3 → 1024 ≤ (b : ℚ) / 1024 ^ j := by
          intro j hj
          interval_cases j
          · simpa using h0'
          · simpa [pow_one] using h1'
          · exact h2'
        by_cases hb : b < 2 ^ 53
        · have hfl : fl64 (b : ℚ) = (b : ℚ) := fl64_natCast b hb
          have hl : convertLoop (fl64 (b : ℚ)) 0 = ((b : ℚ) / 1024 ^ 3, 3) := by
            rw [hfl, convertLoop_step _ _ ⟨h0', by decide⟩,
              convertLoop_step _ _ ⟨h1', by decide⟩, div_1024_sq,
              convertLoop_step _ _ ⟨h2', by decide⟩, div_1024_cube]
            exact convertLoop_stop _ 3 (fun hc => absurd hc.2 (by decide))
          have hmain := convertBytes_eq b _ _ hl
          exact ⟨3, le_refl 3, Or.inr rfl, hsel, by rw [hmain],
            by rw [hmain, hfl], fun _ => by rw [hmain]⟩
        · have hB : (2 ^ 40 : ℚ) ≤ fl64 (b : ℚ) := fl64_big b (not_lt.1 hb)
          have c0 : 1024 ≤ fl64 (b : ℚ) := le_trans (by norm_num) hB
          have c1 : 1024 ≤ fl64 (b : ℚ) / 1024 := by
            rw [le_div_iff₀ (by norm_num)]
            exact le_trans (by norm_num) hB
          have c2 : 1024 ≤ fl64 (b : ℚ) / 1024 ^ 2 := by
            rw [le_div_iff₀ (by positivity)]
            exact le_trans (by norm_num) hB
          have hl : convertLoop (fl64 (b : ℚ)) 0 = (fl64 (b : ℚ) / 1024 ^ 3, 3) := by
            rw [convertLoop_step _ _ ⟨c0, by decide⟩,
              convertLoop_step _ _ ⟨c1, by decide⟩, div_1024_sq,
              convertLoop_step _ _ ⟨c2, by decide⟩, div_1024_cube]
            exact convertLoop_stop _ 3 (fun hc => absurd hc.2 (by decide))
          have hmain := convertBytes_eq b _ _ hl
          exact ⟨3, le_refl 3, Or.inr rfl, hsel, by rw [hmain], by rw [hmain],
            fun h => absurd h hb⟩

end Pprof4svc
